import Mathlib

/-!
Verification development for the SEO-metadata batch pipeline (src/script.py).

The Python program is shallowly embedded: every function of the script that
the properties mention is translated to an executable Lean definition with
the same name.  External effects (the HTTP call of the metadata generator
and the MySQL connection of the selector/writer) are modelled as explicit
oracle inputs; the database table is a `List Record` threaded through the
functions.  Python `str.strip` and `str.replace(pat, "")` are implemented
over `List Char` (`pyStrip`, `removeAll`) so that everything computes by
`rfl`/`decide`.  Python truthiness on parsed JSON values is `pyTruthy`.
An uncaught Python exception (the `KeyError`/`TypeError` the orchestrator
can hit on line 150 of the script when the generated metadata lacks the
expected keys) is modelled by returning `none` from `stepRecord` /
`process_records`.
-/

/-- Characters dropped by Python `str.strip` (leading run). -/
def dropWhileWs : List Char → List Char
  | [] => []
  | c :: cs => if c.isWhitespace then dropWhileWs cs else c :: cs

/-- Model of Python `str.strip()`: remove leading and trailing whitespace. -/
def pyStrip (s : String) : String :=
  String.mk (dropWhileWs (dropWhileWs s.data.reverse).reverse)

/-- Does `pat` occur as a prefix of `l`? -/
def patAtHead : List Char → List Char → Bool
  | [], _ => true
  | _ :: _, [] => false
  | p :: ps, c :: cs => p == c && patAtHead ps cs

/-- Left-to-right removal of every occurrence of `pat`, fuel-bounded. -/
def removeAllAux : Nat → List Char → List Char → List Char
  | 0, _, l => l
  | _ + 1, _, [] => []
  | fuel + 1, pat, c :: cs =>
    if patAtHead pat (c :: cs) then removeAllAux fuel pat ((c :: cs).drop pat.length)
    else c :: removeAllAux fuel pat cs

/-- Model of Python `s.replace(pat, "")` for a non-empty literal `pat`. -/
def removeAll (pat : String) (s : String) : String :=
  String.mk (removeAllAux s.data.length pat.data s.data)

/-- Parsed JSON values, as produced by `json.loads` (numbers restricted to
integers; the script's prompts and the properties below only involve
integer-free or integer payloads). -/
inductive Json where
  | null : Json
  | bool : Bool → Json
  | num : Int → Json
  | str : String → Json
  | arr : List Json → Json
  | obj : List (String × Json) → Json

/-- Python truthiness of a parsed JSON value (`if not meta_data`). -/
def pyTruthy : Json → Bool
  | .null => false
  | .bool b => b
  | .num n => n != 0
  | .str s => s != ("")
  | .arr xs => !xs.isEmpty
  | .obj fs => !fs.isEmpty

/-- First binding of key `k` in an association list of JSON object fields. -/
def lookupKV : List (String × Json) → String → Option Json
  | [], _ => none
  | (k', v) :: fs, k => if k' == k then some v else lookupKV fs k

/-- Insert a binding, overwriting an earlier one with the same key, the way a
Python `dict` built by `json.loads` keeps only the last duplicate. -/
def insertKV (fs : List (String × Json)) (k : String) (v : Json) : List (String × Json) :=
  (fs.filter (fun p => p.1 != k)) ++ [(k, v)]

/-- Python `d[k]` on a parsed JSON value: a value only for an object that
has the key; anything else raised `KeyError`/`TypeError` in the script. -/
def jGet (j : Json) (k : String) : Option Json :=
  match j with
  | .obj fs => lookupKV fs k
  | _ => none

/-- Translation of the common JSON string escapes (`\n`, `\t`, `\r`; every
other escaped character stands for itself, which covers `\"` and `\\`). -/
def unescChar (c : Char) : Char :=
  if c == 'n' then '\n'
  else if c == 't' then '\t'
  else if c == 'r' then '\r'
  else c

/-- Body of a JSON string literal (opening quote already consumed). -/
def parseStrLit : List Char → Option (String × List Char)
  | [] => none
  | '\\' :: c :: cs =>
    match parseStrLit cs with
    | some (s, rest) => some (String.mk (unescChar c :: s.data), rest)
    | none => none
  | '"' :: cs => some (("", cs))
  | c :: cs =>
    match parseStrLit cs with
    | some (s, rest) => some (String.mk (c :: s.data), rest)
    | none => none

/-- Longest leading run of decimal digits. -/
def takeDigits : List Char → (List Char × List Char)
  | [] => (([]), ([]))
  | c :: cs =>
    if c.isDigit then
      let (ds, rest) := takeDigits cs
      (c :: ds, rest)
    else (([]), c :: cs)

/-- Numeric value of a digit run. -/
def digitsToNat (ds : List Char) : Nat :=
  ds.foldl (fun acc c => acc * 10 + (c.toNat - 48)) 0

mutual

/-- Modelled from the spec: the JSON value grammar accepted by the standard
library `json.loads` (missing from src/ — it is the Python standard
library).  Fuel-bounded recursive descent; floating-point literals are not
modelled (numbers are integers). -/
def parseVal : Nat → List Char → Option (Json × List Char)
  | 0, _ => none
  | fuel + 1, cs =>
    match dropWhileWs cs with
    | [] => none
    | c :: cs' =>
      if c == '\x7b' then parseObjBody fuel cs'
      else if c == '[' then parseArrBody fuel cs'
      else if c == '"' then
        match parseStrLit cs' with
        | some (s, rest) => some (Json.str s, rest)
        | none => none
      else if c == 't' then
        if cs'.take 3 == ['r', 'u', 'e'] then some (Json.bool true, cs'.drop 3) else none
      else if c == 'f' then
        if cs'.take 4 == ['a', 'l', 's', 'e'] then some (Json.bool false, cs'.drop 4) else none
      else if c == 'n' then
        if cs'.take 3 == ['u', 'l', 'l'] then some (Json.null, cs'.drop 3) else none
      else if c == '-' then
        match cs' with
        | d :: _ =>
          if d.isDigit then
            let (ds, rest) := takeDigits cs'
            some (Json.num (-(digitsToNat ds : Int)), rest)
          else none
        | [] => none
      else if c.isDigit then
        let (ds, rest) := takeDigits (c :: cs')
        some (Json.num (digitsToNat ds), rest)
      else none

/-- Object body, after the opening brace. -/
def parseObjBody : Nat → List Char → Option (Json × List Char)
  | 0, _ => none
  | fuel + 1, cs =>
    match dropWhileWs cs with
    | '\x7d' :: rest => some (Json.obj [], rest)
    | _ => parseObjItems fuel cs []

/-- Comma-separated `"key": value` items of an object body. -/
def parseObjItems : Nat → List Char → List (String × Json) → Option (Json × List Char)
  | 0, _, _ => none
  | fuel + 1, cs, acc =>
    match dropWhileWs cs with
    | '"' :: cs' =>
      match parseStrLit cs' with
      | some (k, afterKey) =>
        match dropWhileWs afterKey with
        | ':' :: afterColon =>
          match parseVal fuel afterColon with
          | some (v, afterVal) =>
            match dropWhileWs afterVal with
            | ',' :: afterComma => parseObjItems fuel afterComma (insertKV acc k v)
            | '\x7d' :: rest => some (Json.obj (insertKV acc k v), rest)
            | _ => none
          | none => none
        | _ => none
      | none => none
    | _ => none

/-- Array body, after the opening bracket. -/
def parseArrBody : Nat → List Char → Option (Json × List Char)
  | 0, _ => none
  | fuel + 1, cs =>
    match dropWhileWs cs with
    | ']' :: rest => some (Json.arr [], rest)
    | _ => parseArrItems fuel cs []

/-- Comma-separated items of an array body. -/
def parseArrItems : Nat → List Char → List Json → Option (Json × List Char)
  | 0, _, _ => none
  | fuel + 1, cs, acc =>
    match parseVal fuel cs with
    | some (v, afterVal) =>
      match dropWhileWs afterVal with
      | ',' :: afterComma => parseArrItems fuel afterComma (acc ++ [v])
      | ']' :: rest => some (Json.arr (acc ++ [v]), rest)
      | _ => none
    | none => none

end

/-- Modelled from the spec: Python `json.loads` (missing from src/ — the
standard library).  `none` is a raised `json.JSONDecodeError`. -/
def jsonLoads (s : String) : Option Json :=
  match parseVal (s.data.length + 1) s.data with
  | some (j, rest) => if (dropWhileWs rest).isEmpty then some j else none
  | none => none

/-- Tag-stripping automaton: characters outside `<`…`>` are kept. -/
def getTextAux : Bool → List Char → List Char
  | _, [] => []
  | _, '<' :: rest => getTextAux true rest
  | true, '>' :: rest => getTextAux false rest
  | true, _ :: rest => getTextAux true rest
  | false, c :: rest => c :: getTextAux false rest

/-- Modelled from the spec: `BeautifulSoup(html, 'html.parser').get_text()`
(missing from src/ — an external library).  The spec describes it as
parsing the markup and returning only the human-readable text content;
the model keeps every character that is not inside a tag and never fails,
whatever the input. -/
def htmlGetText (s : String) : String :=
  String.mk (getTextAux false s.data)

/-- script.py `clean_html_text` (lines 49-53).  `none` is Python `None`;
`if not html` also catches the empty string. -/
def clean_html_text (html : Option String) : String :=
  match html with
  | none => ("")
  | some s => if s == ("") then ("") else pyStrip (htmlGetText s)

/-- One row of the `cokw3_content` table, with the columns selected by
`get_content_records`.  `none` in an optional field is SQL NULL (or a
missing key).  `metakey`/`metadesc` hold the JSON values the writer stores. -/
structure Record where
  id : Int
  title : String
  fulltext : Option String
  introtext : Option String
  metakey : Option Json
  metadesc : Option Json
  state : Option Int

/-- Python `not content or str(content).strip() == ''` on an optional
string (short-circuit: `None` and `''` are falsy, otherwise the stripped
string is compared with `''`). -/
def pyFalsyOrBlank : Option String → Bool
  | none => true
  | some s => s == ("") || pyStrip s == ("")

/-- script.py `get_clean_content` (lines 55-59): prefer `fulltext`, falling
back to `introtext` when `fulltext` is missing or blank, then strip HTML. -/
def get_clean_content (r : Record) : String :=
  clean_html_text (if pyFalsyOrBlank r.fulltext then r.introtext else r.fulltext)

/-- Outcome of the one HTTP request of the generator: the `requests.post`
call raised (`networkError`), `raise_for_status` raised on a non-2xx
status (`httpError`), `response.json()` failed to parse (`badJson`), or a
2xx response whose body parsed to `body` (`ok`). -/
inductive ApiResponse where
  | networkError : ApiResponse
  | httpError : Nat → ApiResponse
  | badJson : ApiResponse
  | ok : Json → ApiResponse

/-- The access `result["choices"][0]["message"]["content"]` of script.py
lines 96-97, guarded by `"choices" in result and len(result["choices"]) > 0`:
a string only when the whole shape is present; every other shape either
failed the guard or raised inside the `try`, both ending in `None`. -/
def extractChoicesContent (result : Json) : Option String :=
  match result with
  | .obj fs =>
    match lookupKV fs ("choices") with
    | some (.arr (c0 :: _)) =>
      match c0 with
      | .obj mfs =>
        match lookupKV mfs ("message") with
        | some (.obj cfs) =>
          match lookupKV cfs ("content") with
          | some (.str s) => some s
          | _ => none
        | _ => none
      | _ => none
    | _ => none
  | _ => none

/-- script.py line 98: `content.replace('```json', '').replace('```', '').strip()`. -/
def stripFences (content : String) : String :=
  pyStrip (removeAll ("```") (removeAll ("```json") content))

/-- script.py `generate_meta_with_deepseek` (lines 61-103), as a function of
the response oracle.  Every exception of the `try` block is caught and the
function returns `None`; a payload parsing to JSON `null` is returned as
the Python `None` object, indistinguishable from failure. -/
def generate_meta_with_deepseek (resp : ApiResponse) : Option Json :=
  match resp with
  | .networkError => none
  | .httpError _ => none
  | .badJson => none
  | .ok result =>
    match extractChoicesContent result with
    | none => none
    | some content =>
      match jsonLoads (stripFences content) with
      | some Json.null => none
      | some j => some j
      | none => none

/-- Outcome of the `UPDATE`+`commit` pair of the writer: `ok` when both
succeeded, `fail` when either raised a `mysql.connector.Error`. -/
inductive DbOutcome where
  | ok : DbOutcome
  | fail : DbOutcome

/-- Effect of the committed single-statement
`UPDATE cokw3_content SET metakey = %s, metadesc = %s WHERE id = %s`. -/
def applyMetaUpdate (table : List Record) (rid : Int) (kw desc : Json) : List Record :=
  table.map (fun r =>
    if r.id == rid then { r with metakey := some kw, metadesc := some desc } else r)

/-- script.py `update_content_meta` (lines 105-116), as a function of the
database oracle: `true` with the updated committed table on success,
`false` with the table unchanged when the `Error` handler ran. -/
def update_content_meta (table : List Record) (dbo : DbOutcome) (rid : Int)
    (kw desc : Json) : Bool × List Record :=
  match dbo with
  | .fail => (false, table)
  | .ok => (true, applyMetaUpdate table rid kw desc)

/-- The five terminal per-record outcomes of the orchestrator. -/
inductive Outcome where
  | success : Outcome
  | skippedEmpty : Outcome
  | skippedApiErrors : Outcome
  | skippedDbErrors : Outcome
  | skippedState : Outcome

/-- Observable calls made while handling one record. -/
inductive Event where
  | genCall : String → String → Event
  | writeCall : Int → Json → Json → Event
  | sleep : Event

/-- Does control reach the `time.sleep` line for this outcome?  The three
`continue` statements of script.py (lines 132, 139, 147) jump straight to
the next iteration, past line 164; only the success and db-error branches
fall through to it. -/
def sleepAfter : Outcome → Bool
  | .success => true
  | .skippedDbErrors => true
  | _ => false

/-- The accesses `meta_data['meta_keywords']` and `meta_data['meta_description']`
of script.py lines 150-157: both present only for an object holding both
keys; anything else raised an uncaught `KeyError`/`TypeError`. -/
def metaFields (j : Json) : Option (Json × Json) :=
  match jGet j ("meta_keywords"), jGet j ("meta_description") with
  | some kw, some d => some (kw, d)
  | _, _ => none

/-- One iteration of the `for` loop of `process_records` (script.py lines
125-162, without the pacing of line 164): outcome, calls made, and the
table after the iteration.  `none` is an uncaught exception (the KeyError
of line 150 on ill-formed generated metadata), which aborts the batch. -/
def stepRecord (r : Record) (resp : ApiResponse) (dbo : DbOutcome)
    (table : List Record) : Option (Outcome × List Event × List Record) :=
  if r.state.getD 1 == 0 then
    some (Outcome.skippedState, [], table)
  else
    let clean := get_clean_content r
    if clean == ("") || pyStrip clean == ("") then
      some (Outcome.skippedEmpty, [], table)
    else
      let genEv := Event.genCall r.title clean
      match generate_meta_with_deepseek resp with
      | none => some (Outcome.skippedApiErrors, [genEv], table)
      | some j =>
        if !pyTruthy j then
          some (Outcome.skippedApiErrors, [genEv], table)
        else
          match metaFields j with
          | none => none
          | some (kw, desc) =>
            let res := update_content_meta table dbo r.id kw desc
            let wEv := Event.writeCall r.id kw desc
            if res.1 then some (Outcome.success, [genEv, wEv], res.2)
            else some (Outcome.skippedDbErrors, [genEv, wEv], res.2)

/-- The five counters returned by `process_records` (script.py lines 167-173). -/
structure BatchResult where
  success : Nat
  skipped_empty : Nat
  skipped_api_errors : Nat
  skipped_db_errors : Nat
  skipped_state : Nat

/-- The `+= 1` of the counter matching an outcome. -/
def bump (res : BatchResult) : Outcome → BatchResult
  | .success => { res with success := res.success + 1 }
  | .skippedEmpty => { res with skipped_empty := res.skipped_empty + 1 }
  | .skippedApiErrors => { res with skipped_api_errors := res.skipped_api_errors + 1 }
  | .skippedDbErrors => { res with skipped_db_errors := res.skipped_db_errors + 1 }
  | .skippedState => { res with skipped_state := res.skipped_state + 1 }

/-- The loop of `process_records`: `j` is the 0-based index of the next
record (`i = j + 1` in the script's 1-based `enumerate`), `total` the
length of the fetched list, `acc` the counters so far.  The sleep of line
164 (`if i < len(records): time.sleep(API_DELAY)`) is recorded as an event
of the record whose handling reached it. -/
def processAux (api : Nat → ApiResponse) (db : Nat → DbOutcome) (total : Nat) :
    Nat → BatchResult → List Record → List Record →
    Option (BatchResult × List (Outcome × List Event) × List Record)
  | _, acc, table, [] => some (acc, [], table)
  | j, acc, table, r :: rest =>
    match stepRecord r (api j) (db j) table with
    | none => none
    | some (o, evs, table') =>
      let evs' := evs ++ (if sleepAfter o && decide (j + 1 < total) then [Event.sleep] else [])
      match processAux api db total (j + 1) (bump acc o) table' rest with
      | none => none
      | some (res, per, table'') => some (res, (o, evs') :: per, table'')

/-- script.py `process_records` (lines 118-173) over the fetched `records`,
with per-record API and database oracles indexed by record position.
Besides the counters, the embedding returns the per-record outcome and
event trace and the final table state. -/
def process_records (api : Nat → ApiResponse) (db : Nat → DbOutcome)
    (table : List Record) (records : List Record) :
    Option (BatchResult × List (Outcome × List Event) × List Record) :=
  processAux api db records.length 0 ⟨0, 0, 0, 0, 0⟩ table records

/-- The `ORDER BY id` comparison. -/
def recordLe (a b : Record) : Prop :=
  a.id ≤ b.id

instance : DecidableRel recordLe :=
  fun a b => Int.decLe a.id b.id

instance : IsTotal Record recordLe :=
  ⟨fun a b => Int.le_total a.id b.id⟩

instance : IsTrans Record recordLe :=
  ⟨fun _ _ _ => Int.le_trans⟩

/-- script.py `get_content_records` (lines 33-47) as a function of the table
contents: rows ordered by ascending id, with `LIMIT limit` appended only
when `limit` is truthy (`if limit:` — so `None` and `0` both mean no
LIMIT clause). -/
def get_content_records (table : List Record) (limit : Option Nat) : List Record :=
  let sorted := List.insertionSort recordLe table
  match limit with
  | some n => if n != 0 then sorted.take n else sorted
  | none => sorted

/-- Counter total of a batch result. -/
def sumBatch (res : BatchResult) : Nat :=
  res.success + res.skipped_empty + res.skipped_api_errors +
    res.skipped_db_errors + res.skipped_state

/-!
### Concrete fixtures

Records and responses used to instantiate the theorems below on concrete
inputs.  `respWith payload` is a 2xx response whose first choice's message
content is `payload`, the shape the generator expects.
-/

/-- A published record with HTML fulltext (the spec's end-to-end scenario). -/
def recRome : Record :=
  { id := 1, title := ("Rome"), fulltext := some ("<p>Rome is a city.</p>"),
    introtext := none, metakey := none, metadesc := none, state := some 1 }

/-- An unpublished record (`state = 0`). -/
def recUnpub : Record :=
  { id := 2, title := ("X"), fulltext := some ("<p>t</p>"), introtext := none,
    metakey := none, metadesc := none, state := some 0 }

/-- A record whose `state` field is absent (SQL NULL). -/
def recNoState : Record :=
  { id := 3, title := ("Y"), fulltext := some ("<p>y text</p>"), introtext := none,
    metakey := none, metadesc := none, state := none }

/-- A well-shaped 2xx response whose message content is `payload`. -/
def respWith (payload : String) : ApiResponse :=
  ApiResponse.ok (Json.obj [(("choices"), Json.arr [Json.obj [(("message"),
    Json.obj [(("content"), Json.str payload)])]])])

/-- A payload with exactly the two expected keys. -/
def goodPayload : String :=
  ("\x7b\"meta_keywords\": \"rome, city\", \"meta_description\": \"Discover Rome today.\"\x7d")

/-- The parsed metadata of `goodPayload`. -/
def metaRome : Json :=
  Json.obj [(("meta_keywords"), Json.str ("rome, city")),
    (("meta_description"), Json.str ("Discover Rome today."))]

/-!
### Helper lemmas
-/

/-- Each outcome bumps the counter total by exactly one. -/
theorem sumBatch_bump (res : BatchResult) (o : Outcome) :
    sumBatch (bump res o) = sumBatch res + 1 := by
  cases o <;> simp [bump, sumBatch] <;> omega

/-- Loop invariant: the counter total grows by the number of records
processed, and one outcome is recorded per record. -/
theorem processAux_sum (api : Nat → ApiResponse) (db : Nat → DbOutcome) (total : Nat) :
    ∀ (recs : List Record) (j : Nat) (acc : BatchResult) (table : List Record)
      (res : BatchResult) (per : List (Outcome × List Event)) (t' : List Record),
      processAux api db total j acc table recs = some (res, per, t') →
      sumBatch res = sumBatch acc + recs.length ∧ per.length = recs.length := by
  intro recs
  induction recs with
  | nil =>
    intro j acc table res per t' h
    simp only [processAux, Option.some.injEq, Prod.mk.injEq] at h
    obtain ⟨h1, h2, h3⟩ := h
    subst h1; subst h2
    simp
  | cons r rest ih =>
    intro j acc table res per t' h
    simp only [processAux] at h
    cases hstep : stepRecord r (api j) (db j) table with
    | none => rw [hstep] at h; simp at h
    | some x =>
      obtain ⟨o, evs, table'⟩ := x
      rw [hstep] at h
      simp only at h
      cases hrec : processAux api db total (j + 1) (bump acc o) table' rest with
      | none => rw [hrec] at h; simp at h
      | some y =>
        obtain ⟨res2, per2, t2⟩ := y
        rw [hrec] at h
        simp only [Option.some.injEq, Prod.mk.injEq] at h
        obtain ⟨h1, h2, h3⟩ := h
        subst h1
        obtain ⟨ihsum, ihlen⟩ := ih (j + 1) (bump acc o) table' res2 per2 t2 hrec
        constructor
        · rw [ihsum, sumBatch_bump]; simp; omega
        · rw [← h2]; simp [ihlen]

/-!
### Claim theorems
-/

/-- C2: for every run of the batch over any list of fetched records that
returns a result, the sum of the five counters equals the number of records
fetched, and exactly one terminal outcome is recorded per record. -/
theorem c2_counters_sum_to_total (api : Nat → ApiResponse) (db : Nat → DbOutcome)
    (table records : List Record) (res : BatchResult)
    (per : List (Outcome × List Event)) (t' : List Record)
    (h : process_records api db table records = some (res, per, t')) :
    res.success + res.skipped_empty + res.skipped_api_errors +
      res.skipped_db_errors + res.skipped_state = records.length ∧
    per.length = records.length := by
  have hs := processAux_sum api db records.length records 0 ⟨0, 0, 0, 0, 0⟩ table res per t' h
  have : sumBatch res = records.length ∧ per.length = records.length := by
    simpa [sumBatch] using hs
  simpa [sumBatch] using this

/-- Witness for C2: a concrete two-record batch (both unpublished) returns
counters summing to 2, one outcome per record. -/
theorem c2_witness :
    (⟨0, 0, 0, 0, 2⟩ : BatchResult).success + (⟨0, 0, 0, 0, 2⟩ : BatchResult).skipped_empty +
      (⟨0, 0, 0, 0, 2⟩ : BatchResult).skipped_api_errors +
      (⟨0, 0, 0, 0, 2⟩ : BatchResult).skipped_db_errors +
      (⟨0, 0, 0, 0, 2⟩ : BatchResult).skipped_state = ([recUnpub, recUnpub] : List Record).length ∧
    ([(Outcome.skippedState, ([] : List Event)), (Outcome.skippedState, [])]).length
      = ([recUnpub, recUnpub] : List Record).length :=
  c2_counters_sum_to_total (fun _ => ApiResponse.networkError) (fun _ => DbOutcome.ok)
    [] [recUnpub, recUnpub] _ _ _ rfl

/-- C4: a record whose `state` is 0 is classified `skipped_state` with no
generator or writer call and no table change; a record whose `state` field
is absent is treated as published and never classified `skipped_state`. -/
theorem c4_state_zero_skipped (r : Record) (resp : ApiResponse) (dbo : DbOutcome)
    (table : List Record) :
    (r.state = some 0 → stepRecord r resp dbo table = some (Outcome.skippedState, [], table))
    ∧ (r.state = none → ∀ o evs t', stepRecord r resp dbo table = some (o, evs, t') →
        o ≠ Outcome.skippedState) := by
  constructor
  · intro h
    simp [stepRecord, h]
  · intro h o evs t' hstep
    simp only [stepRecord, h, Option.getD_none] at hstep
    norm_num at hstep
    repeat' split at hstep
    all_goals
      first
        | exact Option.noConfusion hstep
        | (injection hstep with hv; injection hv with h1 h2; subst h1; simp)

/-- Witness for C4: the concrete unpublished record is skipped with no
calls; a concrete record with absent state reaches the generator and gets a
non-state outcome. -/
theorem c4_witness :
    stepRecord recUnpub ApiResponse.networkError DbOutcome.ok []
      = some (Outcome.skippedState, [], []) ∧
    Outcome.skippedApiErrors ≠ Outcome.skippedState :=
  ⟨(c4_state_zero_skipped recUnpub ApiResponse.networkError DbOutcome.ok []).1 rfl,
   (c4_state_zero_skipped recNoState ApiResponse.networkError DbOutcome.ok []).2 rfl
     Outcome.skippedApiErrors [Event.genCall ("Y") ("y text")] [] rfl⟩

/-- A record whose fulltext is blank and whose introtext strips to nothing. -/
def recEmpty : Record :=
  { id := 4, title := ("Z"), fulltext := some ("  "), introtext := some ("<p>  </p>"),
    metakey := none, metadesc := none, state := some 1 }

/-- C5: the body passed to the extractor is `fulltext` when it is non-empty
after stripping, otherwise `introtext`; and a published record whose
extracted text strips to nothing is classified `skipped_empty` with no
generator or writer call and no table change. -/
theorem c5_body_choice_and_empty_skip (r : Record) (resp : ApiResponse) (dbo : DbOutcome)
    (table : List Record) :
    (∀ s, r.fulltext = some s → pyStrip s ≠ ("") →
        get_clean_content r = clean_html_text (some s))
    ∧ (r.fulltext = none → get_clean_content r = clean_html_text r.introtext)
    ∧ (∀ s, r.fulltext = some s → pyStrip s = ("") →
        get_clean_content r = clean_html_text r.introtext)
    ∧ (r.state.getD 1 ≠ 0 → pyStrip (get_clean_content r) = ("") →
        stepRecord r resp dbo table = some (Outcome.skippedEmpty, [], table)) := by
  refine ⟨?_, ?_, ?_, ?_⟩
  · intro s hf hns
    have hs : s ≠ ("") := by
      intro he
      subst he
      exact hns rfl
    simp [get_clean_content, pyFalsyOrBlank, hf, hs, hns]
  · intro hf
    simp [get_clean_content, pyFalsyOrBlank, hf]
  · intro s hf hb
    simp [get_clean_content, pyFalsyOrBlank, hf, hb]
  · intro hstate hempty
    have h1 : (r.state.getD 1 == 0) = false := by
      simpa using hstate
    simp [stepRecord, h1, hempty]

/-- Witness for C5: the Rome record's body comes from its fulltext; the
blank record falls back to introtext and is classified `skipped_empty`. -/
theorem c5_witness :
    get_clean_content recRome = clean_html_text (some ("<p>Rome is a city.</p>")) ∧
    stepRecord recEmpty ApiResponse.networkError DbOutcome.ok []
      = some (Outcome.skippedEmpty, [], []) :=
  ⟨(c5_body_choice_and_empty_skip recRome ApiResponse.networkError DbOutcome.ok []).1
      ("<p>Rome is a city.</p>") rfl (by decide),
   (c5_body_choice_and_empty_skip recEmpty ApiResponse.networkError DbOutcome.ok []).2.2.2
      (by decide) rfl⟩

/-- C6: the metadata writer returns false exactly when storage failed (and
then leaves the table unchanged); it returns true only when the update and
commit succeeded, and then the committed table is the old one with
`metakey`/`metadesc` overwritten on every row keyed by the given id and all
other rows unchanged.  Totality of the definition is the no-throw claim. -/
theorem c6_writer_false_on_failure_true_after_commit (table : List Record)
    (dbo : DbOutcome) (rid : Int) (kw desc : Json) :
    ((update_content_meta table dbo rid kw desc).1 = false ↔ dbo = DbOutcome.fail)
    ∧ (dbo = DbOutcome.fail → (update_content_meta table dbo rid kw desc).2 = table)
    ∧ ((update_content_meta table dbo rid kw desc).1 = true →
        ∀ i : Nat, ((update_content_meta table dbo rid kw desc).2)[i]? =
          (table[i]?).map (fun r =>
            if r.id == rid then { r with metakey := some kw, metadesc := some desc }
            else r)) := by
  cases dbo <;> simp [update_content_meta, applyMetaUpdate, List.getElem?_map]

/-- Witness for C6: a concrete failing write leaves the table unchanged; a
concrete successful write stores exactly the given values at the row. -/
theorem c6_witness :
    (update_content_meta [recRome] DbOutcome.fail 1 (Json.str ("k")) (Json.str ("d"))).2
      = [recRome] ∧
    ((update_content_meta [recRome] DbOutcome.ok 1 (Json.str ("k")) (Json.str ("d"))).2)[0]? =
      (([recRome] : List Record)[0]?).map (fun r =>
        if r.id == 1 then
          { r with metakey := some (Json.str ("k")), metadesc := some (Json.str ("d")) }
        else r) :=
  ⟨(c6_writer_false_on_failure_true_after_commit [recRome] DbOutcome.fail 1
      (Json.str ("k")) (Json.str ("d"))).2.1 rfl,
   (c6_writer_false_on_failure_true_after_commit [recRome] DbOutcome.ok 1
      (Json.str ("k")) (Json.str ("d"))).2.2 rfl 0⟩

/-- C8: the HTML text extractor returns the empty string on null or empty
input, and otherwise the tag-stripped human-readable text content with
surrounding whitespace removed; as a total function it returns a value on
every input, however malformed, which is the never-throws claim. -/
theorem c8_extractor_null_empty_and_text (h : Option String) :
    (h = none → clean_html_text h = (""))
    ∧ (h = some ("") → clean_html_text h = (""))
    ∧ (∀ s, h = some s → s ≠ ("") → clean_html_text h = pyStrip (htmlGetText s)) := by
  refine ⟨?_, ?_, ?_⟩
  · intro hh
    subst hh
    rfl
  · intro hh
    subst hh
    rfl
  · intro s hh hs
    subst hh
    simp [clean_html_text, hs]

/-- Witness for C8: concrete markup is reduced to its trimmed text; null
input gives the empty string. -/
theorem c8_witness :
    clean_html_text (some ("<p>Rome is a city.</p>"))
      = pyStrip (htmlGetText ("<p>Rome is a city.</p>")) ∧
    clean_html_text none = ("") :=
  ⟨(c8_extractor_null_empty_and_text (some ("<p>Rome is a city.</p>"))).2.2
      ("<p>Rome is a city.</p>") rfl (by decide),
   (c8_extractor_null_empty_and_text none).1 rfl⟩

/-- C3 counterexample: a 2xx response whose message content parses as JSON
but lacks the `meta_keywords`/`meta_description` keys is returned as-is by
the generator (not null), and the orchestrator then crashes with an
uncaught KeyError on line 150 — it does receive ill-formed metadata. -/
theorem c3_counterexample :
    generate_meta_with_deepseek (respWith ("\x7b\"foo\": 1\x7d"))
      = some (Json.obj [(("foo"), Json.num 1)]) ∧
    stepRecord recRome (respWith ("\x7b\"foo\": 1\x7d")) DbOutcome.ok [] = none :=
  ⟨rfl, rfl⟩

/-- C3 (amended): the generator returns null and never throws on network
failure, non-2xx HTTP response, an unparsable response body, a response
missing the choices/message/content shape, and JSON parse failure of the
message content; but a successfully parsed payload is returned without
validating that the two metadata keys are present. -/
theorem c3_generator_failure_returns_none (resp : ApiResponse) :
    (resp = ApiResponse.networkError → generate_meta_with_deepseek resp = none)
    ∧ (∀ code, resp = ApiResponse.httpError code → generate_meta_with_deepseek resp = none)
    ∧ (resp = ApiResponse.badJson → generate_meta_with_deepseek resp = none)
    ∧ (∀ result, resp = ApiResponse.ok result → extractChoicesContent result = none →
        generate_meta_with_deepseek resp = none)
    ∧ (∀ result content, resp = ApiResponse.ok result →
        extractChoicesContent result = some content →
        jsonLoads (stripFences content) = none →
        generate_meta_with_deepseek resp = none) := by
  refine ⟨?_, ?_, ?_, ?_, ?_⟩ <;> intros <;> subst_vars <;>
    simp_all [generate_meta_with_deepseek]

/-- Witness for C3 (amended): the network-failure case at a concrete input. -/
theorem c3_witness :
    generate_meta_with_deepseek ApiResponse.networkError = none :=
  (c3_generator_failure_returns_none ApiResponse.networkError).1 rfl

/-- C10: a successfully parsed non-null payload is returned by the generator
exactly as parsed, and when that value is falsy (such as the empty object)
the orchestrator classifies the record `skipped_api_errors`, because the
check is Python truthiness rather than a null test. -/
theorem c10_falsy_parse_skipped_api :
    (∀ result content j, extractChoicesContent result = some content →
        jsonLoads (stripFences content) = some j → j ≠ Json.null →
        generate_meta_with_deepseek (ApiResponse.ok result) = some j)
    ∧ (∀ r resp dbo table j, r.state.getD 1 ≠ 0 →
        pyStrip (get_clean_content r) ≠ ("") →
        generate_meta_with_deepseek resp = some j → pyTruthy j = false →
        stepRecord r resp dbo table
          = some (Outcome.skippedApiErrors,
              [Event.genCall r.title (get_clean_content r)], table)) := by
  constructor
  · intro result content j hx hl hn
    cases j <;> simp_all [generate_meta_with_deepseek, hx, hl]
  · intro r resp dbo table j hst hne hgen htr
    have h1 : (r.state.getD 1 == 0) = false := by
      simpa using hst
    have hc : get_clean_content r ≠ ("") := by
      intro he
      apply hne
      rw [he]
      rfl
    simp [stepRecord, h1, hgen, htr, hc, hne]

/-- Witness for C10: the empty-object payload is parsed, returned as the
empty object, and the concrete record is classified `skipped_api_errors`. -/
theorem c10_witness :
    generate_meta_with_deepseek (respWith ("\x7b\x7d")) = some (Json.obj []) ∧
    stepRecord recRome (respWith ("\x7b\x7d")) DbOutcome.ok []
      = some (Outcome.skippedApiErrors, [Event.genCall ("Rome") ("Rome is a city.")], []) :=
  ⟨c10_falsy_parse_skipped_api.1
      (Json.obj [(("choices"), Json.arr [Json.obj [(("message"),
        Json.obj [(("content"), Json.str ("\x7b\x7d"))])]])])
      ("\x7b\x7d") (Json.obj []) rfl rfl (by simp),
   c10_falsy_parse_skipped_api.2 recRome (respWith ("\x7b\x7d")) DbOutcome.ok []
      (Json.obj []) (by decide) (by decide) rfl rfl⟩

/-- C7: a record classified `success` had the writer called with exactly its
id and the generated `meta_keywords`/`meta_description` values, unmodified,
on a successful commit; a record classified `skipped_db_errors` had the
writer called with exactly those values but storage failed and the table is
unchanged. -/
theorem c7_success_writes_exact_values (r : Record) (resp : ApiResponse) (dbo : DbOutcome)
    (table : List Record) (o : Outcome) (evs : List Event) (t' : List Record)
    (hstep : stepRecord r resp dbo table = some (o, evs, t')) :
    (o = Outcome.success →
      ∃ j kw desc, generate_meta_with_deepseek resp = some j ∧
        metaFields j = some (kw, desc) ∧
        evs = [Event.genCall r.title (get_clean_content r),
               Event.writeCall r.id kw desc] ∧
        dbo = DbOutcome.ok ∧ t' = applyMetaUpdate table r.id kw desc)
    ∧ (o = Outcome.skippedDbErrors →
      ∃ j kw desc, generate_meta_with_deepseek resp = some j ∧
        metaFields j = some (kw, desc) ∧
        evs = [Event.genCall r.title (get_clean_content r),
               Event.writeCall r.id kw desc] ∧
        dbo = DbOutcome.fail ∧ t' = table) := by
  simp only [stepRecord] at hstep
  repeat' split at hstep
  all_goals first
    | exact Option.noConfusion hstep
    | (injection hstep with hv
       injection hv with ho hrest
       injection hrest with hevs ht'
       subst ho
       subst hevs
       subst ht'
       refine ⟨fun hco => ?_, fun hco => ?_⟩ <;> cases hco <;>
         refine ⟨_, _, _, by assumption, by assumption, rfl, ?_, ?_⟩ <;>
           cases dbo <;> simp_all [update_content_meta, applyMetaUpdate])

/-- The Rome record after a successful write of the generated metadata. -/
def recRomeUpdated : Record :=
  { recRome with metakey := some (Json.str ("rome, city")),
                 metadesc := some (Json.str ("Discover Rome today.")) }

/-- Witness for C7: the concrete successful Rome run writes exactly the
generated values for id 1. -/
theorem c7_witness :
    ∃ j kw desc, generate_meta_with_deepseek (respWith goodPayload) = some j ∧
      metaFields j = some (kw, desc) ∧
      ([Event.genCall ("Rome") ("Rome is a city."),
        Event.writeCall 1 (Json.str ("rome, city")) (Json.str ("Discover Rome today."))]
        : List Event)
        = [Event.genCall recRome.title (get_clean_content recRome),
           Event.writeCall recRome.id kw desc] ∧
      DbOutcome.ok = DbOutcome.ok ∧
      [recRomeUpdated] = applyMetaUpdate [recRome] recRome.id kw desc :=
  (c7_success_writes_exact_values recRome (respWith goodPayload) DbOutcome.ok [recRome]
      Outcome.success
      [Event.genCall ("Rome") ("Rome is a city."),
       Event.writeCall 1 (Json.str ("rome, city")) (Json.str ("Discover Rome today."))]
      [recRomeUpdated] rfl).1 rfl

/-- C9 counterexample: with a provided limit of 0 the selector does not
bound the result to zero rows — `if limit:` treats 0 as falsy, so the
query is run without a LIMIT clause and every row comes back. -/
theorem c9_counterexample :
    get_content_records [recRome] (some 0) = [recRome] ∧
    (get_content_records [recRome] (some 0)).length = 1 :=
  ⟨rfl, rfl⟩

/-- C9 (amended): the selector returns records sorted by ascending id; when
a non-zero limit is provided it returns at most that many rows; when the
limit is null — or 0, which the truthiness test conflates with null — it
returns every row of the table. -/
theorem c9_selector_order_and_limit (table : List Record) (limit : Option Nat) :
    List.Sorted recordLe (get_content_records table limit)
    ∧ (∀ n, limit = some n → n ≠ 0 → (get_content_records table limit).length ≤ n)
    ∧ (limit = none → (get_content_records table limit).Perm table)
    ∧ (limit = some 0 → (get_content_records table limit).Perm table) := by
  refine ⟨?_, ?_, ?_, ?_⟩
  · have hs := List.sorted_insertionSort recordLe table
    cases limit with
    | none => simpa [get_content_records] using hs
    | some n =>
      by_cases hn : n = 0
      · subst hn
        simpa [get_content_records] using hs
      · have he : get_content_records table (some n)
            = (List.insertionSort recordLe table).take n := by
          simp [get_content_records, hn]
        rw [he]
        exact List.Pairwise.sublist (List.take_sublist n _) hs
  · intro n hl hn
    subst hl
    have he : get_content_records table (some n)
        = (List.insertionSort recordLe table).take n := by
      simp [get_content_records, hn]
    rw [he]
    simp [List.length_take]
  · intro hl
    subst hl
    simpa [get_content_records] using List.perm_insertionSort recordLe table
  · intro hl
    subst hl
    simpa [get_content_records] using List.perm_insertionSort recordLe table

/-- Witness for C9 (amended): a concrete unsorted two-row table is returned
sorted; limit 1 bounds the result; a null limit returns a permutation of
the table. -/
theorem c9_witness :
    List.Sorted recordLe (get_content_records [recUnpub, recRome] (some 1)) ∧
    (get_content_records [recUnpub, recRome] (some 1)).length ≤ 1 ∧
    (get_content_records [recUnpub, recRome] none).Perm [recUnpub, recRome] :=
  ⟨(c9_selector_order_and_limit [recUnpub, recRome] (some 1)).1,
   (c9_selector_order_and_limit [recUnpub, recRome] (some 1)).2.1 1 rfl (by decide),
   (c9_selector_order_and_limit [recUnpub, recRome] none).2.2.1 rfl⟩

/-- C1 counterexample: a two-record batch whose first (non-final) record
ends in `skipped_state` runs with no sleep at all — the `continue` jumps
past the `time.sleep` line, so no inter-record delay occurs after that
record, contradicting "the delay occurs after every record's full handling
except the last, regardless of outcome". -/
theorem c1_counterexample :
    process_records (fun _ => ApiResponse.networkError) (fun _ => DbOutcome.ok)
        [] [recUnpub, recUnpub]
      = some (⟨0, 0, 0, 0, 2⟩,
          [(Outcome.skippedState, []), (Outcome.skippedState, [])], []) ∧
    Event.sleep ∉ ([] : List Event) :=
  ⟨rfl, by simp⟩

/-- The per-record handler itself never sleeps: the sleep is appended by the
loop, only on the fall-through paths. -/
theorem stepRecord_no_sleep (r : Record) (resp : ApiResponse) (dbo : DbOutcome)
    (table : List Record) (o : Outcome) (evs : List Event) (t' : List Record)
    (h : stepRecord r resp dbo table = some (o, evs, t')) :
    Event.sleep ∉ evs := by
  simp only [stepRecord] at h
  repeat' split at h
  all_goals first
    | exact Option.noConfusion h
    | (injection h with hv
       injection hv with ho hrest
       injection hrest with hevs ht'
       subst hevs
       simp)

/-- Loop invariant for the pacing: the record handled at absolute position
`j + k` has a sleep in its events exactly when it is not the last record of
the batch and its outcome fell through to the sleep line. -/
theorem processAux_sleep (api : Nat → ApiResponse) (db : Nat → DbOutcome) (total : Nat) :
    ∀ (recs : List Record) (j : Nat) (acc : BatchResult) (table : List Record)
      (res : BatchResult) (per : List (Outcome × List Event)) (t' : List Record),
      processAux api db total j acc table recs = some (res, per, t') →
      ∀ (k : Nat) (hk : k < per.length),
        (Event.sleep ∈ (per.get ⟨k, hk⟩).2 ↔
          (j + k + 1 < total ∧ sleepAfter (per.get ⟨k, hk⟩).1 = true)) := by
  intro recs
  induction recs with
  | nil =>
    intro j acc table res per t' h k hk
    simp only [processAux, Option.some.injEq, Prod.mk.injEq] at h
    obtain ⟨-, h2, -⟩ := h
    subst h2
    exact absurd hk (by simp)
  | cons r rest ih =>
    intro j acc table res per t' h k hk
    simp only [processAux] at h
    cases hstep : stepRecord r (api j) (db j) table with
    | none =>
      rw [hstep] at h
      exact Option.noConfusion h
    | some x =>
      obtain ⟨o, evs, table'⟩ := x
      rw [hstep] at h
      simp only at h
      cases hrec : processAux api db total (j + 1) (bump acc o) table' rest with
      | none =>
        rw [hrec] at h
        exact Option.noConfusion h
      | some y =>
        obtain ⟨res2, per2, t2⟩ := y
        rw [hrec] at h
        simp only [Option.some.injEq, Prod.mk.injEq] at h
        obtain ⟨-, h2, -⟩ := h
        subst h2
        cases k with
        | zero =>
          have hns := stepRecord_no_sleep r (api j) (db j) table o evs table' hstep
          simp only [List.get]
          constructor
          · intro hmem
            rcases List.mem_append.1 hmem with hin | hin
            · exact absurd hin hns
            · by_cases hc : (sleepAfter o && decide (j + 1 < total)) = true
              · simp only [Bool.and_eq_true, decide_eq_true_eq] at hc
                exact ⟨by omega, hc.1⟩
              · rw [if_neg hc] at hin
                simp at hin
          · rintro ⟨hlt, hsa⟩
            apply List.mem_append.2
            right
            have hc : (sleepAfter o && decide (j + 1 < total)) = true := by
              simp only [Bool.and_eq_true, decide_eq_true_eq]
              exact ⟨hsa, by omega⟩
            rw [if_pos hc]
            simp
        | succ m =>
          have hm : m < per2.length := by
            simpa using hk
          have hrec2 := ih (j + 1) (bump acc o) table' res2 per2 t2 hrec m hm
          have harith : j + 1 + m + 1 = j + (m + 1) + 1 := by omega
          rw [harith] at hrec2
          simpa [List.get] using hrec2

/-- C1 (amended): in every completed run, a record is followed by the fixed
inter-record delay exactly when it is not the last record of the batch and
its terminal outcome was `success` or `skipped_db_errors` (the paths that
fall through to the sleep line); the `skipped_state`, `skipped_empty` and
`skipped_api_errors` paths `continue` past the delay. -/
theorem c1_sleep_only_after_write_stage (api : Nat → ApiResponse) (db : Nat → DbOutcome)
    (table records : List Record) (res : BatchResult)
    (per : List (Outcome × List Event)) (t' : List Record)
    (h : process_records api db table records = some (res, per, t'))
    (k : Nat) (hk : k < per.length) :
    Event.sleep ∈ (per.get ⟨k, hk⟩).2 ↔
      (k + 1 < records.length ∧ sleepAfter (per.get ⟨k, hk⟩).1 = true) := by
  have hx := processAux_sleep api db records.length records 0 ⟨0, 0, 0, 0, 0⟩
    table res per t' h k hk
  simpa using hx

/-- Per-record outcomes and events of a concrete two-record successful run. -/
def perTwoRome : List (Outcome × List Event) :=
  [(Outcome.success,
    [Event.genCall ("Rome") ("Rome is a city."),
     Event.writeCall 1 (Json.str ("rome, city")) (Json.str ("Discover Rome today.")),
     Event.sleep]),
   (Outcome.success,
    [Event.genCall ("Rome") ("Rome is a city."),
     Event.writeCall 1 (Json.str ("rome, city")) (Json.str ("Discover Rome today."))])]

/-- Witness for C1 (amended): in the concrete two-record successful run, the
first record is non-final with outcome `success` and is followed by the
delay. -/
theorem c1_witness :
    Event.sleep ∈ ((perTwoRome.get ⟨0, by decide⟩).2) ↔
      (0 + 1 < ([recRome, recRome] : List Record).length ∧
        sleepAfter (perTwoRome.get ⟨0, by decide⟩).1 = true) :=
  c1_sleep_only_after_write_stage (fun _ => respWith goodPayload) (fun _ => DbOutcome.ok)
    [recRome] [recRome, recRome] ⟨2, 0, 0, 0, 0⟩ perTwoRome [recRomeUpdated] rfl 0 (by decide)
